import Mathlib

/-!
Shallow embedding of the PostHub client core (src/js/api.js, src/js/posts.js,
src/js/config.js).

The two operations with behavioural content are `fetchUser` (user cache) and
`loadPosts` (pagination controller).  Network and DOM are modelled explicitly:
each operation takes the response the environment would deliver for its fetch
as an argument, and returns the new application state together with an effect
record (which posts-requests were issued, which UI states were rendered, and
whether the returned promise resolves or rejects).
-/

namespace PostHub

/-- User record (the fields the core reads; the rest of the JSON payload is
payload data that the cache stores and returns opaquely). -/
structure User where
  id : Nat
  firstName : String
  lastName : String
deriving Repr, DecidableEq

/-- Post record (fields read by the pagination controller). -/
structure Post where
  id : Nat
  userId : Nat
  title : String
  body : String
deriving Repr, DecidableEq

/-- Shape of the response of `GET /posts?limit=N&skip=M`:
`\x7b posts: [], total: N, skip: M, limit: L \x7d`. -/
structure PostsResponse where
  posts : List Post
  total : Nat
  skip : Nat
  limit : Nat
deriving Repr, DecidableEq

/-- The shared application state `appData` of src/js/config.js.
The JS object `users` (a map from user id to user object) is modelled as an
association list. -/
structure AppData where
  posts : List Post
  users : List (Nat × User)
  currentSkip : Nat
  postsPerPage : Nat
  totalPosts : Nat
  isLoading : Bool
  currentPost : Option Post
  currentUser : Option User
deriving Repr, DecidableEq

/-- Initial value of `appData` in src/js/config.js. -/
def appData : AppData :=
  { posts := []
    users := []
    currentSkip := 0
    postsPerPage := 10
    totalPosts := 0
    isLoading := false
    currentPost := none
    currentUser := none }

/-- Lookup `m[k]` on the association-list model of the JS `users` object. -/
def lookupUser (m : List (Nat × User)) (k : Nat) : Option User :=
  match m with
  | [] => none
  | (k1, v) :: rest => if k1 = k then some v else lookupUser rest k

/-- Assignment `m[k] = v` on the JS object model: replace the binding if the
key is present, append it otherwise. -/
def setUser (m : List (Nat × User)) (k : Nat) (v : User) : List (Nat × User) :=
  match m with
  | [] => [(k, v)]
  | (k1, v1) :: rest => if k1 = k then (k, v) :: rest else (k1, v1) :: setUser rest k v

/-- Outcome of a fetch seen by the caller: `Except status user`.
A non-2xx HTTP status makes `fetchUser` throw an error carrying the status. -/
abbrev UserResponse := Except Nat User

/-- Embedding of `fetchUser(userId)` from src/js/api.js.
`resp` is the response the network would deliver if a request is issued.
Returns (result, new state, number of network requests issued). -/
def fetchUser (st : AppData) (userId : Nat) (resp : UserResponse) :
    UserResponse × AppData × Nat :=
  match lookupUser st.users userId with
  | some u => (Except.ok u, st, 0)
  | none =>
    match resp with
    | Except.error status => (Except.error status, st, 1)
    | Except.ok user =>
        (Except.ok user, { st with users := setUser st.users userId user }, 1)

/-- Settle state of the promise an async function returns to its caller. -/
inductive PromiseOutcome where
  | resolved
  | rejected
deriving Repr, DecidableEq

/-- Effects of one `loadPosts` invocation: the posts-requests issued (as
(limit, skip) pairs), which terminal UI states were rendered, and whether the
promise returned to the caller resolves or rejects. -/
structure LoadEff where
  requests : List (Nat × Nat)
  emptyStateShown : Bool
  errorShown : Bool
  result : PromiseOutcome
deriving Repr, DecidableEq

/-- Effect record of a call that did nothing observable. -/
def noEff : LoadEff :=
  { requests := [], emptyStateShown := false, errorShown := false,
    result := PromiseOutcome.resolved }

/-- Embedding of `displayPost(post)` from src/js/posts.js, restricted to its
effect on the shared state: it resolves the author through `fetchUser`
(populating the user cache on a miss) and otherwise only builds DOM nodes.
Its internal try/catch swallows a failed author fetch, so the state effect is
the same on failure. -/
def displayPost (st : AppData) (env : Nat → UserResponse) (p : Post) : AppData :=
  (fetchUser st p.userId (env p.userId)).2.1

/-- State effect of `Promise.all(data.posts.map(post => displayPost(post)))`,
with the author fetches sequenced in list order. -/
def displayPosts (st : AppData) (env : Nat → UserResponse) (ps : List Post) : AppData :=
  ps.foldl (fun s p => displayPost s env p) st

/-- Continuation of `loadPosts` after `await fetchPosts(...)` settles
(src/js/posts.js lines 29-65), entered with `isLoading = true`.
The catch branch renders the error state without rethrowing, and the
`finally` branch resets `isLoading` on every path, including the
empty-first-batch early return. -/
def loadPostsFinish (st : AppData) (env : Nat → UserResponse)
    (resp : Except Unit PostsResponse) : AppData × LoadEff :=
  match resp with
  | Except.error _ =>
      ({ st with isLoading := false },
       { requests := [], emptyStateShown := false, errorShown := true,
         result := PromiseOutcome.resolved })
  | Except.ok data =>
      let st1 : AppData := { st with totalPosts := data.total }
      if data.posts.length = 0 ∧ st1.posts.length = 0 then
        ({ st1 with isLoading := false },
         { requests := [], emptyStateShown := true, errorShown := false,
           result := PromiseOutcome.resolved })
      else
        let st2 : AppData :=
          { st1 with posts := st1.posts ++ data.posts,
                     currentSkip := st1.currentSkip + data.posts.length }
        let st3 : AppData := displayPosts st2 env data.posts
        ({ st3 with isLoading := false },
         { requests := [], emptyStateShown := false, errorShown := false,
           result := PromiseOutcome.resolved })

/-- Embedding of `loadPosts()` from src/js/posts.js.
`resp` is the settlement of `fetchPosts(postsPerPage, currentSkip)` and `env`
delivers the author-fetch responses used while displaying the batch.
If the guard `appData.isLoading` is set the call returns at once, issuing no
request and changing nothing; otherwise it sets the guard, issues exactly one
posts-request for (postsPerPage, currentSkip), and runs the continuation. -/
def loadPosts (st : AppData) (env : Nat → UserResponse)
    (resp : Except Unit PostsResponse) : AppData × LoadEff :=
  if st.isLoading then (st, noEff)
  else
    let fin := loadPostsFinish { st with isLoading := true } env resp
    (fin.1, { fin.2 with requests := [(st.postsPerPage, st.currentSkip)] })

/-- Embedding of `updateLoadMoreButton()` from src/js/posts.js: returns
whether the Load More button (the only driver of further batch requests) is
visible after the update. -/
def updateLoadMoreButton (st : AppData) : Bool :=
  if st.currentSkip ≥ st.totalPosts then false else true

/-- One session operation: a user resolution or a pagination call, each
carrying the responses the environment would deliver. -/
inductive Op where
  | fetchU : Nat → UserResponse → Op
  | loadP : (Nat → UserResponse) → Except Unit PostsResponse → Op

/-- State transition of one session operation. -/
def stepOp (st : AppData) : Op → AppData
  | Op.fetchU id resp => (fetchUser st id resp).2.1
  | Op.loadP env resp => (loadPosts st env resp).1

/-- Run a session: fold the operations over the state. -/
def run (st : AppData) (ops : List Op) : AppData :=
  ops.foldl stepOp st

/-- The posts carried by a posts-response settlement (empty for a failure). -/
def respPosts (resp : Except Unit PostsResponse) : List Post :=
  match resp with
  | Except.error _ => []
  | Except.ok data => data.posts

/-- Server-consistency of one operation issued at a state: a successful batch
response reports a `total` at least as large as the offset it was served at
plus the number of posts it returns (the contract of the paged endpoint,
which reports the collection size in `total`). -/
def opOk (st : AppData) : Op → Prop
  | Op.fetchU _ _ => True
  | Op.loadP _ (Except.error _) => True
  | Op.loadP _ (Except.ok data) => st.currentSkip + data.posts.length ≤ data.total

/-- States reachable from the initial `appData` by session operations whose
batch responses are server-consistent. -/
inductive Reachable : AppData → Prop
  | init : Reachable appData
  | next : ∀ (st : AppData) (op : Op), Reachable st → opOk st op → Reachable (stepOp st op)

/-- Sequence of successful pagination calls, for the monotonic-offset
property. -/
def runBatches (st : AppData) (env : Nat → UserResponse)
    (rs : List PostsResponse) : AppData :=
  rs.foldl (fun s d => (loadPosts s env (Except.ok d)).1) st

/-- Two states agree on every field except possibly the user cache. -/
def usersOnly (st st1 : AppData) : Prop :=
  st1.posts = st.posts ∧ st1.currentSkip = st.currentSkip ∧
  st1.totalPosts = st.totalPosts ∧ st1.isLoading = st.isLoading ∧
  st1.postsPerPage = st.postsPerPage ∧ st1.currentPost = st.currentPost ∧
  st1.currentUser = st.currentUser

/-! Helper lemmas about the cache map. -/

theorem lookupUser_setUser_self (m : List (Nat × User)) (k : Nat) (v : User) :
    lookupUser (setUser m k v) k = some v := by
  induction m with
  | nil => simp [setUser, lookupUser]
  | cons hd tl ih =>
      obtain ⟨k1, v1⟩ := hd
      by_cases h : k1 = k
      · simp [setUser, h, lookupUser]
      · simp [setUser, h, lookupUser, ih]

theorem lookupUser_setUser_ne (m : List (Nat × User)) (k j : Nat) (v : User)
    (h : k ≠ j) : lookupUser (setUser m k v) j = lookupUser m j := by
  induction m with
  | nil => simp [setUser, lookupUser, h]
  | cons hd tl ih =>
      obtain ⟨k1, v1⟩ := hd
      by_cases h1 : k1 = k
      · subst h1
        simp [setUser, lookupUser, h]
      · simp [setUser, h1, lookupUser, ih]

/-! Helper lemmas about `fetchUser`. -/

theorem fetchUser_usersOnly (st : AppData) (id : Nat) (r : UserResponse) :
    usersOnly st (fetchUser st id r).2.1 := by
  cases h : lookupUser st.users id <;> cases r <;>
    simp [fetchUser, h, usersOnly]

theorem fetchUser_users_mono (st : AppData) (id : Nat) (r : UserResponse)
    (j : Nat) (u : User) (h : lookupUser st.users j = some u) :
    lookupUser (fetchUser st id r).2.1.users j = some u := by
  cases hid : lookupUser st.users id with
  | some v => simpa [fetchUser, hid] using h
  | none =>
      cases r with
      | error s => simpa [fetchUser, hid] using h
      | ok v =>
          have hne : id ≠ j := by
            intro he
            rw [he] at hid
            rw [hid] at h
            exact Option.noConfusion h
          simp [fetchUser, hid]
          rw [lookupUser_setUser_ne st.users id j v hne]
          exact h

theorem fetchUser_users_ne (st : AppData) (id : Nat) (r : UserResponse)
    (j : Nat) (h : j ≠ id) :
    lookupUser (fetchUser st id r).2.1.users j = lookupUser st.users j := by
  cases hid : lookupUser st.users id with
  | some v => simp [fetchUser, hid]
  | none =>
      cases r with
      | error s => simp [fetchUser, hid]
      | ok v =>
          simp [fetchUser, hid]
          exact lookupUser_setUser_ne st.users id j v (Ne.symm h)

/-! Helper lemmas about the display loop. -/

theorem usersOnly_refl (st : AppData) : usersOnly st st := by
  simp [usersOnly]

theorem usersOnly_trans (a b c : AppData) (h1 : usersOnly a b)
    (h2 : usersOnly b c) : usersOnly a c := by
  obtain ⟨p1, s1, t1, l1, pp1, cp1, cu1⟩ := h1
  obtain ⟨p2, s2, t2, l2, pp2, cp2, cu2⟩ := h2
  exact ⟨p2.trans p1, s2.trans s1, t2.trans t1, l2.trans l1,
         pp2.trans pp1, cp2.trans cp1, cu2.trans cu1⟩

theorem displayPosts_usersOnly (env : Nat → UserResponse) (ps : List Post) :
    ∀ st : AppData, usersOnly st (displayPosts st env ps) := by
  induction ps with
  | nil => intro st; simp [displayPosts]; exact usersOnly_refl st
  | cons p tl ih =>
      intro st
      have h1 : usersOnly st (displayPost st env p) :=
        fetchUser_usersOnly st p.userId (env p.userId)
      have h2 := ih (displayPost st env p)
      simpa [displayPosts] using
        usersOnly_trans st (displayPost st env p)
          (displayPosts (displayPost st env p) env tl) h1 h2

theorem displayPosts_users_mono (env : Nat → UserResponse) (ps : List Post) :
    ∀ (st : AppData) (j : Nat) (u : User), lookupUser st.users j = some u →
      lookupUser (displayPosts st env ps).users j = some u := by
  induction ps with
  | nil => intro st j u h; simpa [displayPosts] using h
  | cons p tl ih =>
      intro st j u h
      have h1 : lookupUser (displayPost st env p).users j = some u :=
        fetchUser_users_mono st p.userId (env p.userId) j u h
      simpa [displayPosts] using ih (displayPost st env p) j u h1

theorem displayPosts_users_ne (env : Nat → UserResponse) (ps : List Post) :
    ∀ (st : AppData) (j : Nat), (∀ p ∈ ps, p.userId ≠ j) →
      lookupUser (displayPosts st env ps).users j = lookupUser st.users j := by
  induction ps with
  | nil => intro st j _; simp [displayPosts]
  | cons p tl ih =>
      intro st j h
      have h1 : lookupUser (displayPost st env p).users j = lookupUser st.users j :=
        fetchUser_users_ne st p.userId (env p.userId) j
          (fun he => h p (by simp) he.symm)
      have h2 := ih (displayPost st env p) j (fun q hq => h q (by simp [hq]))
      simp [displayPosts] at h2 ⊢
      exact h2.trans h1

/-! Helper lemmas about `loadPosts`. -/

theorem setLoading_false_eq (st : AppData) (h : st.isLoading = false) :
    ({ st with isLoading := false } : AppData) = st := by
  cases st
  simp only [AppData.mk.injEq, and_true, true_and]
  simp only at h
  exact h.symm

theorem loadPosts_inflight (st : AppData) (env : Nat → UserResponse)
    (resp : Except Unit PostsResponse) (h : st.isLoading = true) :
    loadPosts st env resp = (st, noEff) := by
  simp [loadPosts, h]

theorem loadPosts_error_eq (st : AppData) (env : Nat → UserResponse)
    (h : st.isLoading = false) :
    loadPosts st env (Except.error ()) =
      (st, { requests := [(st.postsPerPage, st.currentSkip)],
             emptyStateShown := false, errorShown := true,
             result := PromiseOutcome.resolved }) := by
  simp [loadPosts, loadPostsFinish, h]
  exact setLoading_false_eq st h

theorem loadPosts_ok_fields (st : AppData) (env : Nat → UserResponse)
    (d : PostsResponse) (h : st.isLoading = false) :
    (loadPosts st env (Except.ok d)).1.posts = st.posts ++ d.posts ∧
    (loadPosts st env (Except.ok d)).1.currentSkip
      = st.currentSkip + d.posts.length ∧
    (loadPosts st env (Except.ok d)).1.totalPosts = d.total ∧
    (loadPosts st env (Except.ok d)).1.isLoading = false := by
  simp only [loadPosts, h, Bool.false_eq_true, if_false, loadPostsFinish]
  by_cases hc : d.posts.length = 0 ∧ st.posts.length = 0
  · have hnil : d.posts = [] := List.length_eq_zero.mp hc.1
    simp [hc, hnil]
  · simp only [hc, if_false]
    have hframe := displayPosts_usersOnly env d.posts
      { st with isLoading := true,
                totalPosts := d.total,
                posts := st.posts ++ d.posts,
                currentSkip := st.currentSkip + d.posts.length }
    obtain ⟨hp, hs, ht, _, _, _, _⟩ := hframe
    simp only at hp hs ht
    simp [hp, hs, ht]

theorem loadPosts_isLoading_false (st : AppData) (env : Nat → UserResponse)
    (resp : Except Unit PostsResponse) (h : st.isLoading = false) :
    (loadPosts st env resp).1.isLoading = false := by
  cases resp with
  | error e =>
      cases e
      rw [loadPosts_error_eq st env h]
      exact h
  | ok d => exact (loadPosts_ok_fields st env d h).2.2.2

theorem loadPosts_users_mono (st : AppData) (env : Nat → UserResponse)
    (resp : Except Unit PostsResponse) (j : Nat) (u : User)
    (h : lookupUser st.users j = some u) :
    lookupUser (loadPosts st env resp).1.users j = some u := by
  by_cases hl : st.isLoading
  · rw [loadPosts_inflight st env resp hl]
    exact h
  · simp only [loadPosts, hl, if_false, loadPostsFinish]
    cases resp with
    | error e => simpa using h
    | ok d =>
        by_cases hc : d.posts.length = 0 ∧ st.posts.length = 0
        · simp only [hc]
          simpa using h
        · simp only [hc, if_false]
          exact displayPosts_users_mono env d.posts _ j u (by simpa using h)

theorem loadPosts_users_ne (st : AppData) (env : Nat → UserResponse)
    (resp : Except Unit PostsResponse) (j : Nat)
    (h : ∀ p ∈ respPosts resp, p.userId ≠ j) :
    lookupUser (loadPosts st env resp).1.users j = lookupUser st.users j := by
  by_cases hl : st.isLoading
  · rw [loadPosts_inflight st env resp hl]
  · simp only [loadPosts, hl, if_false, loadPostsFinish]
    cases resp with
    | error e => simp
    | ok d =>
        by_cases hc : d.posts.length = 0 ∧ st.posts.length = 0
        · simp [hc]
        · simp only [hc, if_false]
          have := displayPosts_users_ne env d.posts
            { st with isLoading := true,
                      totalPosts := d.total,
                      posts := st.posts ++ d.posts,
                      currentSkip := st.currentSkip + d.posts.length }
            j (by simpa [respPosts] using h)
          simpa using this

/-! Session-level lemmas. -/

theorem stepOp_users_mono (st : AppData) (op : Op) (j : Nat) (u : User)
    (h : lookupUser st.users j = some u) :
    lookupUser (stepOp st op).users j = some u := by
  cases op with
  | fetchU id r => exact fetchUser_users_mono st id r j u h
  | loadP env resp => exact loadPosts_users_mono st env resp j u h

theorem run_users_mono (ops : List Op) :
    ∀ (st : AppData) (j : Nat) (u : User), lookupUser st.users j = some u →
      lookupUser (run st ops).users j = some u := by
  induction ops with
  | nil => intro st j u h; simpa [run] using h
  | cons op tl ih =>
      intro st j u h
      simpa [run] using ih (stepOp st op) j u (stepOp_users_mono st op j u h)

theorem stepOp_skip_le_total (st : AppData) (op : Op) (hok : opOk st op)
    (h : st.currentSkip ≤ st.totalPosts) :
    (stepOp st op).currentSkip ≤ (stepOp st op).totalPosts := by
  cases op with
  | fetchU id r =>
      obtain ⟨_, hs, ht, _, _, _, _⟩ := fetchUser_usersOnly st id r
      show (fetchUser st id r).2.1.currentSkip ≤ (fetchUser st id r).2.1.totalPosts
      rw [hs, ht]
      exact h
  | loadP env resp =>
      show (loadPosts st env resp).1.currentSkip ≤ (loadPosts st env resp).1.totalPosts
      by_cases hl : st.isLoading
      · rw [loadPosts_inflight st env resp hl]
        exact h
      · have hl1 : st.isLoading = false := by simpa using hl
        cases resp with
        | error e =>
            cases e
            rw [loadPosts_error_eq st env hl1]
            exact h
        | ok d =>
            obtain ⟨_, hs, ht, _⟩ := loadPosts_ok_fields st env d hl1
            rw [hs, ht]
            exact hok

theorem reachable_skip_le_total (st : AppData) (h : Reachable st) :
    st.currentSkip ≤ st.totalPosts := by
  induction h with
  | init => simp [appData]
  | next st1 op _ hok ih => exact stepOp_skip_le_total st1 op hok ih

theorem runBatches_fields (env : Nat → UserResponse) (rs : List PostsResponse) :
    ∀ st : AppData, st.isLoading = false →
      (runBatches st env rs).currentSkip
        = st.currentSkip + (rs.map (fun r => r.posts.length)).sum ∧
      (runBatches st env rs).posts = st.posts ++ (rs.map (fun r => r.posts)).flatten ∧
      (runBatches st env rs).isLoading = false := by
  induction rs with
  | nil => intro st h; simp [runBatches, h]
  | cons d tl ih =>
      intro st h
      obtain ⟨hp, hs, _, hl⟩ := loadPosts_ok_fields st env d h
      obtain ⟨ihs, ihp, ihl⟩ := ih ((loadPosts st env (Except.ok d)).1) hl
      have hrun : runBatches st env (d :: tl)
          = runBatches ((loadPosts st env (Except.ok d)).1) env tl := by
        simp [runBatches]
      refine ⟨?_, ?_, ?_⟩
      · rw [hrun, ihs, hs]
        simp [Nat.add_assoc]
      · rw [hrun, ihp, hp]
        simp
      · rw [hrun]
        exact ihl

theorem loadPosts_config_frame (st : AppData) (env : Nat → UserResponse)
    (resp : Except Unit PostsResponse) :
    (loadPosts st env resp).1.postsPerPage = st.postsPerPage ∧
    (loadPosts st env resp).1.currentPost = st.currentPost ∧
    (loadPosts st env resp).1.currentUser = st.currentUser := by
  by_cases hl : st.isLoading
  · rw [loadPosts_inflight st env resp hl]
    exact ⟨rfl, rfl, rfl⟩
  · simp only [loadPosts, hl, if_false]
    cases resp with
    | error e => simp [loadPostsFinish]
    | ok d =>
        simp only [loadPostsFinish]
        by_cases hc : d.posts.length = 0 ∧ st.posts.length = 0
        · simp [hc]
        · simp only [hc, if_false]
          have hframe := displayPosts_usersOnly env d.posts
            { st with isLoading := true,
                      totalPosts := d.total,
                      posts := st.posts ++ d.posts,
                      currentSkip := st.currentSkip + d.posts.length }
          obtain ⟨_, _, _, _, hpp, hcp, hcu⟩ := hframe
          simp only at hpp hcp hcu
          simp [hpp, hcp, hcu]

/-! Concrete sample values used by the witnesses and counterexamples. -/

/-- A sample user record. -/
def aliceUser : User := { id := 1, firstName := "Alice", lastName := "A" }

/-- Environment answering every user fetch with HTTP status 404. -/
def envErr : Nat → UserResponse := fun _ => Except.error 404

/-- Environment answering every user fetch with `aliceUser`. -/
def envAlice : Nat → UserResponse := fun _ => Except.ok aliceUser

/-- A sample post authored by user 1. -/
def samplePost : Post := { id := 5, userId := 1, title := "t", body := "b" }

/-- A sample one-post batch response with total 3. -/
def sampleResp : PostsResponse := { posts := [samplePost], total := 3, skip := 0, limit := 10 }

/-- A zero-post batch response with total 0. -/
def emptyResp : PostsResponse := { posts := [], total := 0, skip := 0, limit := 10 }

/-! The claims. -/

/-- C1: if the users cache contains an entry for an id, `fetchUser` returns
that cached entry with no network request and no state change; two sequential
calls with the same id (starting from a hit, or from a miss whose fetch
succeeds) issue at most one network request in total and return identical
data; and a cache entry, once present, is never overwritten or invalidated by
any later session operation. -/
theorem claim1_cache_idempotence (st st2 : AppData) (id : Nat) (u : User)
    (r1 r2 : UserResponse) (ops : List Op)
    (hcase : lookupUser st.users id = some u ∨
             (lookupUser st.users id = none ∧ r1 = Except.ok u))
    (hcached : lookupUser st2.users id = some u) :
    fetchUser st2 id r2 = (Except.ok u, st2, 0) ∧
    (fetchUser st id r1).1 = Except.ok u ∧
    (fetchUser (fetchUser st id r1).2.1 id r2).1 = Except.ok u ∧
    (fetchUser st id r1).2.2
      + (fetchUser (fetchUser st id r1).2.1 id r2).2.2 ≤ 1 ∧
    lookupUser (run st2 ops).users id = some u := by
  refine ⟨by simp [fetchUser, hcached], ?_, ?_, ?_,
          run_users_mono ops st2 id u hcached⟩ <;>
  · rcases hcase with hhit | ⟨hmiss, hr⟩
    · simp [fetchUser, hhit]
    · subst hr
      simp [fetchUser, hmiss, lookupUser_setUser_self]

/-- Witness for C1 at a concrete miss-then-hit pair: the two calls issue
exactly one request in total. -/
theorem claim1_cache_idempotence_witness :
    (fetchUser appData 1 (Except.ok aliceUser)).2.2
      + (fetchUser (fetchUser appData 1 (Except.ok aliceUser)).2.1 1
          (Except.error 500)).2.2 ≤ 1 :=
  (claim1_cache_idempotence appData
    { appData with users := [(1, aliceUser)] } 1 aliceUser
    (Except.ok aliceUser) (Except.error 500) []
    (Or.inr ⟨rfl, rfl⟩) rfl).2.2.2.1

/-- C2: a `loadPosts` call made while a previous one is in flight (the state
with `isLoading = true`) is a no-op: it returns the state unchanged and
issues no request; the in-flight call then finishes exactly as an
un-overlapped call would, and the round issues exactly one posts request,
namely (postsPerPage, currentSkip). -/
theorem claim2_duplicate_call_guard (st : AppData)
    (env1 env2 : Nat → UserResponse) (r1 r2 : Except Unit PostsResponse)
    (h : st.isLoading = false) :
    loadPosts { st with isLoading := true } env2 r2
      = ({ st with isLoading := true }, noEff) ∧
    (loadPostsFinish { st with isLoading := true } env1 r1).1
      = (loadPosts st env1 r1).1 ∧
    (loadPosts st env1 r1).2.requests = [(st.postsPerPage, st.currentSkip)] := by
  refine ⟨loadPosts_inflight _ env2 r2 rfl, ?_, ?_⟩ <;> simp [loadPosts, h]

/-- Witness for C2 at the initial state with a concrete batch response for
the first call and a failure for the second. -/
theorem claim2_duplicate_call_guard_witness :
    loadPosts { appData with isLoading := true } envErr (Except.error ())
      = ({ appData with isLoading := true }, noEff) ∧
    (loadPostsFinish { appData with isLoading := true } envAlice
        (Except.ok sampleResp)).1
      = (loadPosts appData envAlice (Except.ok sampleResp)).1 ∧
    (loadPosts appData envAlice (Except.ok sampleResp)).2.requests
      = [(appData.postsPerPage, appData.currentSkip)] :=
  claim2_duplicate_call_guard appData envAlice envErr
    (Except.ok sampleResp) (Except.error ()) rfl

/-- C3: a successful `loadPosts` call appends the returned posts in order,
sets `totalPosts` from the response total, and advances `currentSkip` by the
number of posts actually returned; hence over any sequence of successful
calls `currentSkip` and the posts count grow by the sum of the returned batch
sizes. -/
theorem claim3_batch_append_monotonic_offset (st : AppData)
    (env : Nat → UserResponse) (d : PostsResponse) (rs : List PostsResponse)
    (h : st.isLoading = false) :
    (loadPosts st env (Except.ok d)).1.posts = st.posts ++ d.posts ∧
    (loadPosts st env (Except.ok d)).1.totalPosts = d.total ∧
    (loadPosts st env (Except.ok d)).1.currentSkip
      = st.currentSkip + d.posts.length ∧
    (runBatches st env rs).currentSkip
      = st.currentSkip + (rs.map (fun r => r.posts.length)).sum ∧
    (runBatches st env rs).posts.length
      = st.posts.length + (rs.map (fun r => r.posts.length)).sum := by
  obtain ⟨hp, hs, ht, _⟩ := loadPosts_ok_fields st env d h
  obtain ⟨hrs, hrp, _⟩ := runBatches_fields env rs st h
  refine ⟨hp, ht, hs, hrs, ?_⟩
  rw [hrp]
  simp only [List.length_append, List.length_flatten, List.map_map]
  rfl

/-- Witness for C3: a short page of 1 post under limit 10 advances
`currentSkip` by 1, and a two-batch run sums the batch sizes. -/
theorem claim3_batch_append_monotonic_offset_witness :
    (runBatches appData envAlice [sampleResp, emptyResp]).currentSkip
      = appData.currentSkip
        + ([sampleResp, emptyResp].map (fun r => r.posts.length)).sum :=
  (claim3_batch_append_monotonic_offset appData envAlice sampleResp
    [sampleResp, emptyResp] rfl).2.2.2.1

/-- C4: a `loadPosts` call whose fetch fails leaves the whole state exactly
as it was (in particular `posts`, `currentSkip`, `totalPosts`), and every
call entered with the guard clear ends with `isLoading = false`, whatever the
response. -/
theorem claim4_failure_leaves_state (st : AppData) (env : Nat → UserResponse)
    (resp : Except Unit PostsResponse) (h : st.isLoading = false) :
    loadPosts st env (Except.error ())
      = (st, { requests := [(st.postsPerPage, st.currentSkip)],
               emptyStateShown := false, errorShown := true,
               result := PromiseOutcome.resolved }) ∧
    (loadPosts st env resp).1.isLoading = false :=
  ⟨loadPosts_error_eq st env h, loadPosts_isLoading_false st env resp h⟩

/-- Witness for C4 at the initial state. -/
theorem claim4_failure_leaves_state_witness :
    loadPosts appData envErr (Except.error ())
      = (appData, { requests := [(appData.postsPerPage, appData.currentSkip)],
                    emptyStateShown := false, errorShown := true,
                    result := PromiseOutcome.resolved }) ∧
    (loadPosts appData envErr (Except.ok sampleResp)).1.isLoading = false :=
  claim4_failure_leaves_state appData envErr (Except.ok sampleResp) rfl

/-- C5: on a cache miss answered with a non-success HTTP status, `fetchUser`
returns the error carrying the status code, caches nothing, and leaves the
state unchanged, so a subsequent call for the same id issues a fresh network
request. -/
theorem claim5_cache_non_poisoning (st : AppData) (id code : Nat)
    (r2 : UserResponse) (h : lookupUser st.users id = none) :
    fetchUser st id (Except.error code) = (Except.error code, st, 1) ∧
    (fetchUser (fetchUser st id (Except.error code)).2.1 id r2).2.2 = 1 := by
  have h1 : fetchUser st id (Except.error code) = (Except.error code, st, 1) := by
    simp [fetchUser, h]
  refine ⟨h1, ?_⟩
  rw [h1]
  cases r2 <;> simp [fetchUser, h]

/-- Witness for C5 at the initial state with status 500. -/
theorem claim5_cache_non_poisoning_witness :
    fetchUser appData 1 (Except.error 500) = (Except.error 500, appData, 1) ∧
    (fetchUser (fetchUser appData 1 (Except.error 500)).2.1 1
        (Except.ok aliceUser)).2.2 = 1 :=
  claim5_cache_non_poisoning appData 1 500 (Except.ok aliceUser) rfl

/-- C6: in every state reachable by session operations with server-consistent
batch responses, `currentSkip ≤ totalPosts`; and in any state with
`currentSkip ≥ totalPosts` the Load More button (the driver of further batch
requests) is hidden, so the controller issues no further batch requests. -/
theorem claim6_pagination_invariant (st st2 : AppData) (h : Reachable st)
    (h2 : st2.currentSkip ≥ st2.totalPosts) :
    st.currentSkip ≤ st.totalPosts ∧ updateLoadMoreButton st2 = false :=
  ⟨reachable_skip_le_total st h, by simp [updateLoadMoreButton, h2]⟩

/-- Witness for C6 at the initial state, which is reachable and exhausted
(0 ≥ 0). -/
theorem claim6_pagination_invariant_witness :
    appData.currentSkip ≤ appData.totalPosts ∧
    updateLoadMoreButton appData = false :=
  claim6_pagination_invariant appData appData Reachable.init (by decide)

/-- C7 counterexample: at a concrete failing fetch from the initial state,
the promise `loadPosts` returns to its caller does not reject — the caller
cannot observe the failure through the result of the call, contradicting the
claim that the failure is surfaced to the immediate caller of the
operation. -/
theorem claim7_counterexample :
    ¬ ((loadPosts appData envErr (Except.error ())).2.result
          = PromiseOutcome.rejected) := by decide

/-- C7 amended: when the fetch inside `loadPosts` fails, the failure
propagates from `fetchPosts` to `loadPosts` (its immediate caller), which
catches it, renders the error state in the UI, and completes normally, so
the caller of `loadPosts` observes a resolved promise. -/
theorem claim7_amended_error_handled_internally (st : AppData)
    (env : Nat → UserResponse) (h : st.isLoading = false) :
    (loadPosts st env (Except.error ())).2.errorShown = true ∧
    (loadPosts st env (Except.error ())).2.result = PromiseOutcome.resolved := by
  rw [loadPosts_error_eq st env h]
  exact ⟨rfl, rfl⟩

/-- Witness for the amended C7 at the initial state. -/
theorem claim7_amended_error_handled_internally_witness :
    (loadPosts appData envErr (Except.error ())).2.errorShown = true ∧
    (loadPosts appData envErr (Except.error ())).2.result
      = PromiseOutcome.resolved :=
  claim7_amended_error_handled_internally appData envErr rfl

/-- C8: when the very first batch returns zero posts, the call completes
successfully with `posts` still empty, `currentSkip` still 0, `totalPosts`
taken from the response, and the empty-collection state rendered, so the
caller can tell an empty collection apart from an exhausted later page. -/
theorem claim8_empty_first_batch (st : AppData) (env : Nat → UserResponse)
    (d : PostsResponse) (h : st.isLoading = false) (hp : st.posts = [])
    (hs : st.currentSkip = 0) (hd : d.posts = []) :
    (loadPosts st env (Except.ok d)).1.posts = [] ∧
    (loadPosts st env (Except.ok d)).1.currentSkip = 0 ∧
    (loadPosts st env (Except.ok d)).1.totalPosts = d.total ∧
    (loadPosts st env (Except.ok d)).1.isLoading = false ∧
    (loadPosts st env (Except.ok d)).2.emptyStateShown = true ∧
    (loadPosts st env (Except.ok d)).2.result = PromiseOutcome.resolved := by
  simp [loadPosts, loadPostsFinish, h, hd, hp, hs]

/-- Witness for C8 at the initial state with the zero-post response. -/
theorem claim8_empty_first_batch_witness :
    (loadPosts appData envAlice (Except.ok emptyResp)).1.posts = [] ∧
    (loadPosts appData envAlice (Except.ok emptyResp)).1.currentSkip = 0 ∧
    (loadPosts appData envAlice (Except.ok emptyResp)).1.totalPosts
      = emptyResp.total ∧
    (loadPosts appData envAlice (Except.ok emptyResp)).1.isLoading = false ∧
    (loadPosts appData envAlice (Except.ok emptyResp)).2.emptyStateShown
      = true ∧
    (loadPosts appData envAlice (Except.ok emptyResp)).2.result
      = PromiseOutcome.resolved :=
  claim8_empty_first_batch appData envAlice emptyResp rfl rfl rfl rfl

/-- C9 counterexample: a successful `loadPosts` call from the initial state
whose batch contains a post by an uncached author adds that author to the
users cache while rendering, contradicting the claim that `loadPosts` never
modifies the users cache. -/
theorem claim9_counterexample :
    ¬ ((loadPosts appData envAlice (Except.ok sampleResp)).1.users
          = appData.users) := by decide

/-- C9 amended: `loadPosts` never modifies `postsPerPage`, `currentPost` or
`currentUser`; it modifies the users cache only by possibly adding entries
for authors of the returned posts while rendering (existing entries are
preserved and keys outside the returned authors are untouched); and
`fetchUser` modifies no state besides possibly the single cache entry for the
requested id. -/
theorem claim9_amended_frame (st : AppData) (env : Nat → UserResponse)
    (resp : Except Unit PostsResponse) (id j k1 k2 : Nat) (r : UserResponse)
    (u : User) (hj : lookupUser st.users j = some u)
    (hk1 : ∀ p ∈ respPosts resp, p.userId ≠ k1) (hk2 : k2 ≠ id) :
    (loadPosts st env resp).1.postsPerPage = st.postsPerPage ∧
    (loadPosts st env resp).1.currentPost = st.currentPost ∧
    (loadPosts st env resp).1.currentUser = st.currentUser ∧
    lookupUser (loadPosts st env resp).1.users j = some u ∧
    lookupUser (loadPosts st env resp).1.users k1 = lookupUser st.users k1 ∧
    (fetchUser st id r).2.1.posts = st.posts ∧
    (fetchUser st id r).2.1.currentSkip = st.currentSkip ∧
    (fetchUser st id r).2.1.totalPosts = st.totalPosts ∧
    (fetchUser st id r).2.1.isLoading = st.isLoading ∧
    (fetchUser st id r).2.1.postsPerPage = st.postsPerPage ∧
    (fetchUser st id r).2.1.currentPost = st.currentPost ∧
    (fetchUser st id r).2.1.currentUser = st.currentUser ∧
    lookupUser (fetchUser st id r).2.1.users k2 = lookupUser st.users k2 := by
  obtain ⟨hpp, hcp, hcu⟩ := loadPosts_config_frame st env resp
  obtain ⟨fp, fs, ft, fl, fpp, fcp, fcu⟩ := fetchUser_usersOnly st id r
  exact ⟨hpp, hcp, hcu,
         loadPosts_users_mono st env resp j u hj,
         loadPosts_users_ne st env resp k1 hk1,
         fp, fs, ft, fl, fpp, fcp, fcu,
         fetchUser_users_ne st id r k2 hk2⟩

/-- Witness for the amended C9 at a concrete state whose cache holds user 1,
with a failing batch response and a user fetch for id 2. -/
theorem claim9_amended_frame_witness :
    (loadPosts { appData with users := [(1, aliceUser)] } envAlice
        (Except.error ())).1.postsPerPage
      = ({ appData with users := [(1, aliceUser)] } : AppData).postsPerPage ∧
    lookupUser (loadPosts { appData with users := [(1, aliceUser)] } envAlice
        (Except.error ())).1.users 1 = some aliceUser :=
  have h := claim9_amended_frame { appData with users := [(1, aliceUser)] }
    envAlice (Except.error ()) 2 1 3 4 (Except.error 500) aliceUser rfl
    (by simp [respPosts]) (by decide)
  ⟨h.1, h.2.2.2.1⟩

/-- C10: a successful batch returning zero posts while `posts` is already
non-empty is handled as a normal batch, not as the empty-collection case:
`totalPosts` is overwritten from the response, `posts` and `currentSkip` are
unchanged, `isLoading` is reset, and the empty state is not rendered. -/
theorem claim10_zero_posts_later_batch (st : AppData)
    (env : Nat → UserResponse) (d : PostsResponse) (h : st.isLoading = false)
    (hne : st.posts ≠ []) (hd : d.posts = []) :
    (loadPosts st env (Except.ok d)).1.posts = st.posts ∧
    (loadPosts st env (Except.ok d)).1.currentSkip = st.currentSkip ∧
    (loadPosts st env (Except.ok d)).1.totalPosts = d.total ∧
    (loadPosts st env (Except.ok d)).1.isLoading = false ∧
    (loadPosts st env (Except.ok d)).2.emptyStateShown = false := by
  obtain ⟨hp, hs, ht, hl⟩ := loadPosts_ok_fields st env d h
  refine ⟨?_, ?_, ht, hl, ?_⟩
  · rw [hp, hd]
    simp
  · rw [hs, hd]
    simp
  · simp [loadPosts, loadPostsFinish, h, hd, hne]

/-- Witness for C10 at a state already holding one post. -/
theorem claim10_zero_posts_later_batch_witness :
    (loadPosts { appData with posts := [samplePost], currentSkip := 1 }
        envAlice (Except.ok emptyResp)).1.posts = [samplePost] ∧
    (loadPosts { appData with posts := [samplePost], currentSkip := 1 }
        envAlice (Except.ok emptyResp)).1.currentSkip
      = ({ appData with posts := [samplePost], currentSkip := 1 } :
          AppData).currentSkip ∧
    (loadPosts { appData with posts := [samplePost], currentSkip := 1 }
        envAlice (Except.ok emptyResp)).1.totalPosts = emptyResp.total ∧
    (loadPosts { appData with posts := [samplePost], currentSkip := 1 }
        envAlice (Except.ok emptyResp)).1.isLoading = false ∧
    (loadPosts { appData with posts := [samplePost], currentSkip := 1 }
        envAlice (Except.ok emptyResp)).2.emptyStateShown = false :=
  claim10_zero_posts_later_batch
    { appData with posts := [samplePost], currentSkip := 1 }
    envAlice emptyResp rfl (by decide) rfl

end PostHub
